import Mathlib

/-!
Verification of the frame-compositing effects engine of the video
sequencer (`source/blender/sequencer/intern/effects.cc`).

The per-pixel arithmetic of the effect algorithms is embedded shallowly:

* 8-bit channel values are `ℕ` (always kept below 256 by the byte
  invariant of the buffers); C `int` arithmetic on them is `ℤ`;
  the C conversion of an `int` back to `uchar` is reduction mod 256.
* C `float` arithmetic is idealized as exact rational (`ℚ`) arithmetic.
* The C arithmetic right shift `>> k` on a (possibly negative) `int`
  is floor division by `2 ^ k` (`Int.fdiv`), matching the behaviour
  of the compilers the code targets; on non-negative values this is
  ordinary division.
* A pixel buffer is a `List` of pixels; the row loops of the source are
  `List.zipWith` / structural recursion over the pixel stream, which
  visits the same pixels in the same order.
* Functions that live outside the excerpted file (the ~20 blend-mode
  kernels, the premultiplied re-encode helper, the f-curve evaluator,
  the gaussian filter-value routine) enter as explicit parameters of the
  definitions that call them, exactly where the source calls through a
  function pointer or external helper.
-/

/-- C truncation toward zero of a rational value, as performed by the
C casts `int(...)` and float-to-integer conversions: the numerator is
divided by the (positive) denominator truncating toward zero. -/
def cTruncInt (q : ℚ) : ℤ := Int.tdiv q.num (q.den : ℤ)

/-- Arithmetic right shift of a C `int` by `k` bits: floor division by
`2 ^ k` (sign-extending shift, as implemented by the targeted compilers). -/
def asr (n : ℤ) (k : ℕ) : ℤ := Int.fdiv n (2 ^ k)

/-- Conversion of a C `int` value to `uchar` on store into a byte
buffer: reduction modulo 256. -/
def toUchar (n : ℤ) : ℕ := (n.emod 256).toNat

/-- One RGBA pixel of an 8-bit (`uchar`) buffer.  Channel values of a
well-formed buffer are below 256. -/
structure PixB where
  r : ℕ
  g : ℕ
  b : ℕ
  a : ℕ
deriving DecidableEq, Repr

/-- One RGBA pixel of a float buffer (channels idealized as `ℚ`). -/
structure PixF where
  r : ℚ
  g : ℚ
  b : ℚ
  a : ℚ
deriving DecidableEq, Repr

/-- All four channels of a byte pixel are in range (below 256). -/
def PixB.inRange (p : PixB) : Prop :=
  p.r < 256 ∧ p.g < 256 ∧ p.b < 256 ∧ p.a < 256

instance (p : PixB) : Decidable p.inRange := by
  unfold PixB.inRange; infer_instance

/- ------------------------------------------------------------------ -/
/- Cross effect (`do_cross_effect_byte` / `do_cross_effect_float`).    -/
/- ------------------------------------------------------------------ -/

/-- Per-pixel body of `do_cross_effect_byte`:
`temp_fac = int(256.0f * fac)`, `temp_mfac = 256 - temp_fac`, and each
channel is `(temp_mfac * rt1[c] + temp_fac * rt2[c]) >> 8`. -/
def do_cross_effect_byte_px (fac : ℚ) (p1 p2 : PixB) : PixB :=
  let temp_fac : ℤ := cTruncInt (256 * fac)
  let temp_mfac : ℤ := 256 - temp_fac
  let ch : ℕ → ℕ → ℕ := fun u v => toUchar (asr (temp_mfac * (u : ℤ) + temp_fac * (v : ℤ)) 8)
  ⟨ch p1.r p2.r, ch p1.g p2.g, ch p1.b p2.b, ch p1.a p2.a⟩

/-- `do_cross_effect_byte` over whole (flat row-major) pixel buffers. -/
def do_cross_effect_byte (fac : ℚ) (rect1 rect2 : List PixB) : List PixB :=
  List.zipWith (do_cross_effect_byte_px fac) rect1 rect2

/-- Per-pixel body of `do_cross_effect_float`:
`mfac = 1 - fac`, each channel `mfac * rt1[c] + fac * rt2[c]`. -/
def do_cross_effect_float_px (fac : ℚ) (p1 p2 : PixF) : PixF :=
  let mfac : ℚ := 1 - fac
  ⟨mfac * p1.r + fac * p2.r, mfac * p1.g + fac * p2.g,
   mfac * p1.b + fac * p2.b, mfac * p1.a + fac * p2.a⟩

/-- `do_cross_effect_float` over whole pixel buffers. -/
def do_cross_effect_float (fac : ℚ) (rect1 rect2 : List PixF) : List PixF :=
  List.zipWith (do_cross_effect_float_px fac) rect1 rect2

/- ------------------------------------------------------------------ -/
/- Add / Subtract / Multiply legacy effects.                           -/
/- ------------------------------------------------------------------ -/

/-- Per-pixel body of `do_add_effect_byte`: with
`temp_fac = int(256.0f * fac)` and `temp_fac2 = temp_fac * cp2[3]`, each
color channel is `min(cp1[c] + ((temp_fac2 * cp2[c]) >> 16), 255)` and
the alpha channel is copied from input 1 (`rt[3] = cp1[3]`). -/
def do_add_effect_byte_px (fac : ℚ) (p1 p2 : PixB) : PixB :=
  let temp_fac : ℤ := cTruncInt (256 * fac)
  let temp_fac2 : ℤ := temp_fac * (p2.a : ℤ)
  let ch : ℕ → ℕ → ℕ := fun u v => toUchar (min ((u : ℤ) + asr (temp_fac2 * (v : ℤ)) 16) 255)
  ⟨ch p1.r p2.r, ch p1.g p2.g, ch p1.b p2.b, p1.a⟩

/-- Per-pixel body of `do_add_effect_float`: with
`temp_fac = (1 - (rt1[3] * (1 - fac))) * rt2[3]`, each color channel is
`rt1[c] + temp_fac * rt2[c]` and alpha is `rt1[3]`. -/
def do_add_effect_float_px (fac : ℚ) (p1 p2 : PixF) : PixF :=
  let temp_fac : ℚ := (1 - (p1.a * (1 - fac))) * p2.a
  ⟨p1.r + temp_fac * p2.r, p1.g + temp_fac * p2.g, p1.b + temp_fac * p2.b, p1.a⟩

/-- Per-pixel body of `do_sub_effect_byte`: each color channel is
`max(cp1[c] - ((temp_fac2 * cp2[c]) >> 16), 0)`, alpha is `cp1[3]`. -/
def do_sub_effect_byte_px (fac : ℚ) (p1 p2 : PixB) : PixB :=
  let temp_fac : ℤ := cTruncInt (256 * fac)
  let temp_fac2 : ℤ := temp_fac * (p2.a : ℤ)
  let ch : ℕ → ℕ → ℕ := fun u v => toUchar (max ((u : ℤ) - asr (temp_fac2 * (v : ℤ)) 16) 0)
  ⟨ch p1.r p2.r, ch p1.g p2.g, ch p1.b p2.b, p1.a⟩

/-- Per-pixel body of `do_sub_effect_float`: with `mfac = 1 - fac` and
`temp_fac = (1 - (rt1[3] * mfac)) * rt2[3]`, each color channel is
`max(rt1[c] - temp_fac * rt2[c], 0)` and alpha is `rt1[3]`. -/
def do_sub_effect_float_px (fac : ℚ) (p1 p2 : PixF) : PixF :=
  let mfac : ℚ := 1 - fac
  let temp_fac : ℚ := (1 - (p1.a * mfac)) * p2.a
  ⟨max (p1.r - temp_fac * p2.r) 0, max (p1.g - temp_fac * p2.g) 0,
   max (p1.b - temp_fac * p2.b) 0, p1.a⟩

/-- Per-pixel body of `do_mul_effect_byte`: every one of the four
channels, the alpha channel included, is
`rt1[c] + ((temp_fac * rt1[c] * (rt2[c] - 255)) >> 16)`. -/
def do_mul_effect_byte_px (fac : ℚ) (p1 p2 : PixB) : PixB :=
  let temp_fac : ℤ := cTruncInt (256 * fac)
  let ch : ℕ → ℕ → ℕ := fun u v => toUchar ((u : ℤ) + asr (temp_fac * (u : ℤ) * ((v : ℤ) - 255)) 16)
  ⟨ch p1.r p2.r, ch p1.g p2.g, ch p1.b p2.b, ch p1.a p2.a⟩

/-- Per-pixel body of `do_mul_effect_float`: every one of the four
channels, the alpha channel included, is
`rt1[c] + fac * rt1[c] * (rt2[c] - 1)`. -/
def do_mul_effect_float_px (fac : ℚ) (p1 p2 : PixF) : PixF :=
  let ch : ℚ → ℚ → ℚ := fun u v => u + fac * u * (v - 1)
  ⟨ch p1.r p2.r, ch p1.g p2.g, ch p1.b p2.b, ch p1.a p2.a⟩

/- ------------------------------------------------------------------ -/
/- Alpha-over effect.                                                  -/
/- ------------------------------------------------------------------ -/

/-- Modelled from the spec: `straight_uchar_to_premul_float` (declared in
the image library outside the excerpted sources) decodes a straight-alpha
8-bit pixel into normalized premultiplied floats: alpha becomes
`a / 255` and every color channel becomes `(c / 255) * alpha`. -/
def straight_uchar_to_premul_float (p : PixB) : PixF :=
  let alpha : ℚ := (p.a : ℚ) / 255
  ⟨(p.r : ℚ) / 255 * alpha, (p.g : ℚ) / 255 * alpha, (p.b : ℚ) / 255 * alpha, alpha⟩

/-- Per-pixel body of `do_alphaover_effect_byte`.  The straight→premul
decode of both inputs happens first, `mfac = 1 - fac * rt1[3]` uses the
decoded alpha of input 1, and the final premul→straight re-encode
(`premul_float_to_straight_uchar`, an external helper) is passed in as
the parameter `premul_float_to_straight_uchar`. -/
def do_alphaover_effect_byte_px (premul_float_to_straight_uchar : PixF → PixB)
    (fac : ℚ) (p1 p2 : PixB) : PixB :=
  let rt1 := straight_uchar_to_premul_float p1
  let rt2 := straight_uchar_to_premul_float p2
  let mfac : ℚ := 1 - fac * rt1.a
  if fac ≤ 0 then p2
  else if mfac ≤ 0 then p1
  else
    premul_float_to_straight_uchar
      ⟨fac * rt1.r + mfac * rt2.r, fac * rt1.g + mfac * rt2.g,
       fac * rt1.b + mfac * rt2.b, fac * rt1.a + mfac * rt2.a⟩

/-- Per-pixel body of `do_alphaover_effect_float`:
`mfac = 1 - fac * rt1[3]`; if `fac <= 0` copy `rt2`, else if `mfac <= 0`
copy `rt1`, else blend all four channels `fac * rt1[c] + mfac * rt2[c]`. -/
def do_alphaover_effect_float_px (fac : ℚ) (p1 p2 : PixF) : PixF :=
  let mfac : ℚ := 1 - fac * p1.a
  if fac ≤ 0 then p2
  else if mfac ≤ 0 then p1
  else
    ⟨fac * p1.r + mfac * p2.r, fac * p1.g + mfac * p2.g,
     fac * p1.b + mfac * p2.b, fac * p1.a + mfac * p2.a⟩

/- ------------------------------------------------------------------ -/
/- Blend-mode family driver (`apply_blend_function_byte` / `_float`).  -/
/- ------------------------------------------------------------------ -/

/-- `apply_blend_function_byte`: walks both buffers in step.  For every
pixel it saves `achannel = rt2[3]`, stores the scaled alpha
`uint(achannel) * fac` (float product truncated back into the byte
buffer) into `rt2[3]`, calls the blend kernel, restores `rt2[3]`, and
overwrites the output alpha with `rt1[3]`.  The result is the pair
(final state of buffer 2, output buffer). -/
def apply_blend_function_byte (blend_function : PixB → PixB → PixB) (fac : ℚ) :
    List PixB → List PixB → List PixB × List PixB
  | p1 :: rest1, p2 :: rest2 =>
    let achannel : ℕ := p2.a
    let p2scaled : PixB := ⟨p2.r, p2.g, p2.b, ((cTruncInt ((achannel : ℚ) * fac)).emod 256).toNat⟩
    let o : PixB := blend_function p1 p2scaled
    let rest := apply_blend_function_byte blend_function fac rest1 rest2
    (⟨p2scaled.r, p2scaled.g, p2scaled.b, achannel⟩ :: rest.1, ⟨o.r, o.g, o.b, p1.a⟩ :: rest.2)
  | [], rest2 => (rest2, [])
  | _ :: _, [] => ([], [])

/-- `apply_blend_function_float`: same driver in the float domain; the
scaled alpha stored into `rt2[3]` is `achannel * fac` exactly. -/
def apply_blend_function_float (blend_function : PixF → PixF → PixF) (fac : ℚ) :
    List PixF → List PixF → List PixF × List PixF
  | p1 :: rest1, p2 :: rest2 =>
    let achannel : ℚ := p2.a
    let p2scaled : PixF := ⟨p2.r, p2.g, p2.b, achannel * fac⟩
    let o : PixF := blend_function p1 p2scaled
    let rest := apply_blend_function_float blend_function fac rest1 rest2
    (⟨p2scaled.r, p2scaled.g, p2scaled.b, achannel⟩ :: rest.1, ⟨o.r, o.g, o.b, p1.a⟩ :: rest.2)
  | [], rest2 => (rest2, [])
  | _ :: _, [] => ([], [])

/- ------------------------------------------------------------------ -/
/- Speed effect frame-remap table.                                     -/
/- ------------------------------------------------------------------ -/

/-- The C `CLAMP(a, b, c)` macro: if `a < b` the result is `b`, else if
`a > c` the result is `c`, else `a`. -/
def clampQ (v lo hi : ℚ) : ℚ := if v < lo then lo else if v > hi then hi else v

/-- Running value of the local `target_frame` accumulator of
`seq_effect_speed_rebuild_map` after processing `frame_index`:
`frameMap[0] = 0`, and for each later index the f-curve evaluation at
that index is added and the running value is clamped to
`[0, target_frame_max]` before being stored. -/
def speed_target_frame (curve : ℕ → ℚ) (target_frame_max : ℚ) : ℕ → ℚ
  | 0 => 0
  | n + 1 => clampQ (speed_target_frame curve target_frame_max n + curve (n + 1)) 0 target_frame_max

/-- `seq_effect_speed_rebuild_map` (for a non-null input and
`effect_strip_length ≥ 1`): the rebuilt `frameMap` array.  `curve i`
stands for `evaluate_fcurve(fcu, left_handle + i)` (the f-curve
evaluator is external and arbitrary), and `target_frame_max` for
`SEQ_time_strip_length_get(scene, seq->seq1)`, the source strip
length. -/
def seq_effect_speed_rebuild_map (curve : ℕ → ℚ) (effect_strip_length : ℕ)
    (target_frame_max : ℚ) : List ℚ :=
  (List.range effect_strip_length).map (speed_target_frame curve target_frame_max)

/- ------------------------------------------------------------------ -/
/- Gaussian blur.                                                      -/
/- ------------------------------------------------------------------ -/

/-- One output channel of `do_gaussian_blur_effect_float_x` (all four
channels are computed by this same formula).  `gausstab_x` is the kernel
table built by `make_gaussian_blur_kernel` (external filter evaluation,
passed as a parameter), indexed as in the source by
`current_x - j + size_x`.  Samples with `current_x` outside
`[0, frame_width)` are skipped: they contribute to neither `accum` nor
`accum_weight`, and the pixel is `accum * (1 / accum_weight)`. -/
def do_gaussian_blur_effect_float_x_px (gausstab_x : ℤ → ℚ) (size_x frame_width : ℤ)
    (rect : ℤ → ℤ → ℚ) (start_line j i : ℤ) : ℚ :=
  let accum : ℚ :=
    ∑ current_x ∈ Finset.Icc (j - size_x) (j + size_x),
      if 0 ≤ current_x ∧ current_x < frame_width then
        rect current_x (i + start_line) * gausstab_x (current_x - j + size_x)
      else 0
  let accum_weight : ℚ :=
    ∑ current_x ∈ Finset.Icc (j - size_x) (j + size_x),
      if 0 ≤ current_x ∧ current_x < frame_width then gausstab_x (current_x - j + size_x)
      else 0
  accum * accum_weight⁻¹

/-- One output channel of `do_gaussian_blur_effect_float_y`.  Samples
with `current_y < -start_line` or `current_y + start_line ≥ frame_height`
are skipped from both the weighted sum and the weight accumulator. -/
def do_gaussian_blur_effect_float_y_px (gausstab_y : ℤ → ℚ) (size_y frame_height : ℤ)
    (rect : ℤ → ℤ → ℚ) (start_line j i : ℤ) : ℚ :=
  let accum : ℚ :=
    ∑ current_y ∈ Finset.Icc (i - size_y) (i + size_y),
      if -start_line ≤ current_y ∧ current_y + start_line < frame_height then
        rect j (current_y + start_line) * gausstab_y (current_y - i + size_y)
      else 0
  let accum_weight : ℚ :=
    ∑ current_y ∈ Finset.Icc (i - size_y) (i + size_y),
      if -start_line ≤ current_y ∧ current_y + start_line < frame_height then
        gausstab_y (current_y - i + size_y)
      else 0
  accum * accum_weight⁻¹

/- ------------------------------------------------------------------ -/
/- Early-out classification and registry.                              -/
/- ------------------------------------------------------------------ -/

/-- The early-out classification outcomes (`EARLY_*` enum). -/
inductive StripEarlyOut
  | noInput
  | doEffect
  | useInput1
  | useInput2
deriving DecidableEq, Repr

/-- `early_out_fade`: `fac == 0.0` yields use-input-1, `fac == 1.0`
yields use-input-2, anything else runs the effect. -/
def early_out_fade (fac : ℚ) : StripEarlyOut :=
  if fac = 0 then .useInput1
  else if fac = 1 then .useInput2
  else .doEffect

/-- `early_out_gaussian_blur`: use input 1 when both configured radii
are zero (`size_x == 0.0f && size_y == 0`), else run the full effect. -/
def early_out_gaussian_blur (size_x size_y : ℚ) : StripEarlyOut :=
  if size_x = 0 ∧ size_y = 0 then .useInput1 else .doEffect

/-- Modelled from the spec: the compositing call driving an effect
(placed in the render dispatch, outside the excerpted sources) returns
input 1 unchanged, allocating no new output buffer, when the effect's
early-out classification says use-input-1; otherwise it runs the full
algorithm and returns its newly produced buffer. -/
def gaussian_blur_render {α : Type} (size_x size_y : ℚ) (input1 full_result : α) : α :=
  match early_out_gaussian_blur size_x size_y with
  | .useInput1 => input1
  | _ => full_result

/-- Identity of the `early_out` function pointer stored in a handle. -/
inductive EarlyOutFn
  | noop
  | fade
  | mulInput2
  | mulInput1
  | speed
  | color
  | multicam
  | adjustment
  | gaussianBlur
  | text
deriving DecidableEq, Repr

/-- The closed enumeration of effect strip types dispatched by
`get_sequence_effect_impl`. -/
inductive SeqType
  | cross
  | gamcross
  | add
  | sub
  | mul
  | screen
  | overlay
  | color_burn
  | linear_burn
  | darken
  | lighten
  | dodge
  | soft_light
  | hard_light
  | pin_light
  | lin_light
  | vivid_light
  | blend_color
  | hue
  | saturation
  | value
  | difference
  | exclusion
  | colormix
  | alphaover
  | overdrop
  | alphaunder
  | wipe
  | glow
  | transform
  | speed
  | color
  | multicam
  | adjustment
  | gaussian_blur
  | text
deriving DecidableEq, Repr

/-- The capability bundle `SeqEffectHandle`, restricted to the data the
claims are about: the two flags, the input-count function (its returned
value), which early-out function is installed, and whether the
`execute`, `execute_slice` and `init_execution` function pointers are
non-null.  The remaining pointers (`init`, `load`, `free`, `copy`,
`get_default_fac`) do not enter any claim. -/
structure SeqEffectHandle where
  multithreaded : Bool
  supports_mask : Bool
  num_inputs : ℕ
  early_out : EarlyOutFn
  has_execute : Bool
  has_execute_slice : Bool
  has_init_execution : Bool
deriving DecidableEq, Repr

/-- The defaults installed by `get_sequence_effect_impl` before the
switch: `num_inputs = num_inputs_default` (2), `early_out =
early_out_noop`, `execute = nullptr`, `execute_slice = nullptr`,
`init_execution = init_execution` (non-null). -/
def default_handle : SeqEffectHandle :=
  { multithreaded := false
    supports_mask := false
    num_inputs := 2
    early_out := .noop
    has_execute := false
    has_execute_slice := false
    has_init_execution := true }

/-- `get_sequence_effect_impl`: the registry switch.  Each arm applies
exactly the overrides of the corresponding `case` of the source
(`SEQ_TYPE_GAMCROSS` replaces `init_execution` by
`gammacross_init_execution`, which is still non-null). -/
def get_sequence_effect_impl (seq_type : SeqType) : SeqEffectHandle :=
  match seq_type with
  | .cross =>
    { default_handle with multithreaded := true, has_execute_slice := true, early_out := .fade }
  | .gamcross =>
    { default_handle with multithreaded := true, early_out := .fade, has_execute_slice := true }
  | .add =>
    { default_handle with multithreaded := true, has_execute_slice := true, early_out := .mulInput2 }
  | .sub =>
    { default_handle with multithreaded := true, has_execute_slice := true, early_out := .mulInput2 }
  | .mul =>
    { default_handle with multithreaded := true, has_execute_slice := true, early_out := .mulInput2 }
  | .screen | .overlay | .color_burn | .linear_burn | .darken | .lighten | .dodge
  | .soft_light | .hard_light | .pin_light | .lin_light | .vivid_light
  | .blend_color | .hue | .saturation | .value | .difference | .exclusion =>
    { default_handle with multithreaded := true, has_execute_slice := true, early_out := .mulInput2 }
  | .colormix =>
    { default_handle with multithreaded := true, has_execute_slice := true, early_out := .mulInput2 }
  | .alphaover =>
    { default_handle with multithreaded := true, has_execute_slice := true, early_out := .mulInput1 }
  | .overdrop =>
    { default_handle with multithreaded := true, has_execute_slice := true }
  | .alphaunder =>
    { default_handle with multithreaded := true, has_execute_slice := true }
  | .wipe =>
    { default_handle with num_inputs := 2, early_out := .fade, has_execute := true }
  | .glow =>
    { default_handle with num_inputs := 1, has_execute := true }
  | .transform =>
    { default_handle with multithreaded := true, num_inputs := 1, has_execute_slice := true }
  | .speed =>
    { default_handle with num_inputs := 1, has_execute := true, early_out := .speed }
  | .color =>
    { default_handle with num_inputs := 0, early_out := .color, has_execute := true }
  | .multicam =>
    { default_handle with num_inputs := 0, early_out := .multicam, has_execute := true }
  | .adjustment =>
    { default_handle with
      supports_mask := true
      num_inputs := 0
      early_out := .adjustment
      has_execute := true }
  | .gaussian_blur =>
    { default_handle with num_inputs := 1, early_out := .gaussianBlur, has_execute := true }
  | .text =>
    { default_handle with num_inputs := 0, early_out := .text, has_execute := true }

/-- `SEQ_effect_get_num_inputs`: the input-count query of the public
API; the count is reported only when the handle can actually execute
(`execute` non-null, or `execute_slice` with `init_execution`). -/
def SEQ_effect_get_num_inputs (seq_type : SeqType) : ℕ :=
  let rval := get_sequence_effect_impl seq_type
  if rval.has_execute || (rval.has_execute_slice && rval.has_init_execution) then rval.num_inputs
  else 0

/- ------------------------------------------------------------------ -/
/- Output buffer representation selection (`prepare_effect_imbufs`).   -/
/- ------------------------------------------------------------------ -/

/-- The representations carried by one input `ImBuf`. -/
structure ImBufDesc where
  has_float_data : Bool
  has_byte_data : Bool
deriving DecidableEq, Repr

/-- The C test `ibuf && ibuf->float_buffer.data` on an optional input. -/
def imbuf_float_data : Option ImBufDesc → Bool
  | none => false
  | some ibuf => ibuf.has_float_data

/-- The branch structure of `prepare_effect_imbufs` that decides the
output representation: all three inputs null allocates a byte output;
else if any non-null input carries a float buffer the output is float;
else the output is a byte buffer.  The result is whether the output is
allocated in float representation. -/
def prepare_effect_imbufs_float (ibuf1 ibuf2 ibuf3 : Option ImBufDesc) : Bool :=
  if ibuf1.isNone && ibuf2.isNone && ibuf3.isNone then false
  else if imbuf_float_data ibuf1 || imbuf_float_data ibuf2 || imbuf_float_data ibuf3 then true
  else false

/- ================================================================== -/
/- Helper lemmas.                                                      -/
/- ================================================================== -/

theorem zipWith_left_of_pointwise {α : Type} (f : α → α → α) (r1 r2 : List α)
    (hlen : r1.length = r2.length) (hf : ∀ p ∈ r1, ∀ q, f p q = p) :
    List.zipWith f r1 r2 = r1 := by
  induction r1 generalizing r2 with
  | nil => simp
  | cons p rest ih =>
    cases r2 with
    | nil => simp at hlen
    | cons q rest2 =>
      simp only [List.zipWith_cons_cons]
      rw [hf p (by simp) q,
        ih rest2 (by simpa using hlen) (fun x hx q2 => hf x (by simp [hx]) q2)]

theorem zipWith_right_of_pointwise {α : Type} (f : α → α → α) (r1 r2 : List α)
    (hlen : r1.length = r2.length) (hf : ∀ q ∈ r2, ∀ p, f p q = q) :
    List.zipWith f r1 r2 = r2 := by
  induction r1 generalizing r2 with
  | nil => cases r2 with
    | nil => rfl
    | cons q rest2 => simp at hlen
  | cons p rest ih =>
    cases r2 with
    | nil => simp at hlen
    | cons q rest2 =>
      simp only [List.zipWith_cons_cons]
      rw [hf q (by simp) p,
        ih rest2 (by simpa using hlen) (fun x hx p2 => hf x (by simp [hx]) p2)]

/-- Evaluation rule: C truncation of an integer-valued rational is that
integer. -/
theorem cTruncInt_intCast (n : ℤ) : cTruncInt (n : ℚ) = n := by
  simp [cTruncInt]

/- ================================================================== -/
/- Claim theorems.                                                     -/
/- ================================================================== -/

/-- Shared evaluation: the byte-path cross of the 2x2 pure-red and
pure-blue all-opaque buffers at `fac = 0.25`, computed pixel by pixel. -/
theorem cross_byte_red_blue_quarter :
    do_cross_effect_byte (1 / 4) (List.replicate 4 ⟨255, 0, 0, 255⟩)
        (List.replicate 4 ⟨0, 0, 255, 255⟩) =
      List.replicate 4 (⟨191, 0, 63, 255⟩ : PixB) := by
  have h : cTruncInt (256 * (1 / 4 : ℚ)) = 64 := by
    rw [show (256 * (1 / 4 : ℚ)) = ((64 : ℤ) : ℚ) by norm_num, cTruncInt_intCast]
  have hp : do_cross_effect_byte_px (1 / 4) ⟨255, 0, 0, 255⟩ ⟨0, 0, 255, 255⟩ =
      ⟨191, 0, 63, 255⟩ := by
    simp only [do_cross_effect_byte_px, h]
    decide
  simp only [do_cross_effect_byte, List.replicate_succ, List.replicate_zero,
    List.zipWith_cons_cons, List.zipWith_nil_right, hp]

/-- C1 (counterexample): on two 2x2 fully opaque buffers, pure red and
pure blue, the byte-path cross at `fac = 0.25` does NOT produce
`(191, 0, 64, 255)` at every pixel: the fixed-point formula truncates
`64 * 255 >> 8 = 63.75` down to 63, not up to 64. -/
theorem c1_cross_byte_claimed_output_wrong :
    do_cross_effect_byte (1 / 4) (List.replicate 4 ⟨255, 0, 0, 255⟩)
        (List.replicate 4 ⟨0, 0, 255, 255⟩) ≠
      List.replicate 4 (⟨191, 0, 64, 255⟩ : PixB) := by
  rw [cross_byte_red_blue_quarter]
  decide

/-- C1 (amended): the byte-path cross of the 2x2 pure-red and pure-blue
all-opaque buffers at `fac = 0.25` yields `(191, 0, 63, 255)` at every
pixel, by the fixed-point formula with integer truncation. -/
theorem c1_cross_byte_end_to_end :
    do_cross_effect_byte (1 / 4) (List.replicate 4 ⟨255, 0, 0, 255⟩)
        (List.replicate 4 ⟨0, 0, 255, 255⟩) =
      List.replicate 4 (⟨191, 0, 63, 255⟩ : PixB) :=
  cross_byte_red_blue_quarter

/-- C2 (counterexample): the multiply effect does NOT leave the alpha
channel of input 1 unchanged: in the float path at `fac = 1`, an opaque
input-1 pixel against a transparent input-2 pixel comes out with alpha
`1 + 1 * 1 * (0 - 1) = 0`, not 1. -/
theorem c2_mul_effect_changes_alpha :
    (do_mul_effect_float_px 1 ⟨0, 0, 0, 1⟩ ⟨0, 0, 0, 0⟩).a ≠ (⟨0, 0, 0, 1⟩ : PixF).a := by
  norm_num [do_mul_effect_float_px]

/-- C2 (amended): for every pixel and blend factor, the add and subtract
effects copy input 1's alpha unchanged in both the byte and float paths;
the multiply effect instead applies its per-channel formula to the alpha
channel as well (byte: `a1 + ((temp_fac * a1 * (a2 - 255)) >> 16)`,
float: `a1 + fac * a1 * (a2 - 1)`), so only add and subtract are
color-only operators. -/
theorem c2_add_sub_preserve_alpha_mul_does_not :
    ∀ (fac : ℚ) (p1 p2 : PixB) (q1 q2 : PixF),
      (do_add_effect_byte_px fac p1 p2).a = p1.a ∧
      (do_sub_effect_byte_px fac p1 p2).a = p1.a ∧
      (do_add_effect_float_px fac q1 q2).a = q1.a ∧
      (do_sub_effect_float_px fac q1 q2).a = q1.a ∧
      (do_mul_effect_byte_px fac p1 p2).a =
        toUchar ((p1.a : ℤ) + asr (cTruncInt (256 * fac) * (p1.a : ℤ) * ((p2.a : ℤ) - 255)) 16) ∧
      (do_mul_effect_float_px fac q1 q2).a = q1.a + fac * q1.a * (q2.a - 1) :=
  fun _ _ _ _ _ => ⟨rfl, rfl, rfl, rfl, rfl, rfl⟩

/-- Byte store of `(256 * u) >> 8` recovers `u` for an in-range byte. -/
theorem toUchar_asr8_full (u : ℕ) (h : u < 256) :
    toUchar (asr (256 * (u : ℤ)) 8) = u := by
  unfold toUchar asr
  rw [show ((2 : ℤ) ^ 8) = 256 by norm_num]
  rw [Int.mul_fdiv_cancel_left _ (by norm_num)]
  show ((u : ℤ) % 256).toNat = u
  omega

/-- At `fac = 0` the byte-path cross pixel is input 1 exactly. -/
theorem cross_byte_px_fac_zero (p q : PixB) (hp : p.inRange) :
    do_cross_effect_byte_px 0 p q = p := by
  obtain ⟨pr, pg, pb, pa⟩ := p
  obtain ⟨h1, h2, h3, h4⟩ := hp
  have h : cTruncInt (256 * (0 : ℚ)) = 0 := by
    rw [show (256 * (0 : ℚ)) = ((0 : ℤ) : ℚ) by norm_num, cTruncInt_intCast]
  simp only [do_cross_effect_byte_px, h, PixB.mk.injEq]
  norm_num
  exact ⟨toUchar_asr8_full pr h1, toUchar_asr8_full pg h2, toUchar_asr8_full pb h3,
    toUchar_asr8_full pa h4⟩

/-- At `fac = 1` the byte-path cross pixel is input 2 exactly. -/
theorem cross_byte_px_fac_one (p q : PixB) (hq : q.inRange) :
    do_cross_effect_byte_px 1 p q = q := by
  obtain ⟨qr, qg, qb, qa⟩ := q
  obtain ⟨h1, h2, h3, h4⟩ := hq
  have h : cTruncInt (256 * (1 : ℚ)) = 256 := by
    rw [show (256 * (1 : ℚ)) = ((256 : ℤ) : ℚ) by norm_num, cTruncInt_intCast]
  simp only [do_cross_effect_byte_px, h, PixB.mk.injEq]
  norm_num
  exact ⟨toUchar_asr8_full qr h1, toUchar_asr8_full qg h2, toUchar_asr8_full qb h3,
    toUchar_asr8_full qa h4⟩

/-- At `fac = 0` the float-path cross pixel is input 1 exactly. -/
theorem cross_float_px_fac_zero (p q : PixF) : do_cross_effect_float_px 0 p q = p := by
  obtain ⟨pr, pg, pb, pa⟩ := p
  simp [do_cross_effect_float_px]

/-- At `fac = 1` the float-path cross pixel is input 2 exactly. -/
theorem cross_float_px_fac_one (p q : PixF) : do_cross_effect_float_px 1 p q = q := by
  obtain ⟨qr, qg, qb, qa⟩ := q
  simp [do_cross_effect_float_px]

/-- C4: the cross effect at `fac = 0` returns input buffer 1 exactly and
at `fac = 1` input buffer 2 exactly, in the byte (fixed-point) path and
in the float path, for equally sized buffers; and the registry's
early-out for cross (`early_out_fade`) reports use-input-1 at `fac = 0`
and use-input-2 at `fac = 1`. -/
theorem c4_cross_boundary_laws :
    (∀ rect1 rect2 : List PixB, rect1.length = rect2.length →
        (∀ p ∈ rect1, p.inRange) → do_cross_effect_byte 0 rect1 rect2 = rect1) ∧
    (∀ rect1 rect2 : List PixB, rect1.length = rect2.length →
        (∀ q ∈ rect2, q.inRange) → do_cross_effect_byte 1 rect1 rect2 = rect2) ∧
    (∀ rect1 rect2 : List PixF, rect1.length = rect2.length →
        do_cross_effect_float 0 rect1 rect2 = rect1) ∧
    (∀ rect1 rect2 : List PixF, rect1.length = rect2.length →
        do_cross_effect_float 1 rect1 rect2 = rect2) ∧
    early_out_fade 0 = StripEarlyOut.useInput1 ∧
    early_out_fade 1 = StripEarlyOut.useInput2 ∧
    (get_sequence_effect_impl SeqType.cross).early_out = EarlyOutFn.fade := by
  refine ⟨?_, ?_, ?_, ?_, ?_, ?_, rfl⟩
  · intro r1 r2 hlen hrange
    exact zipWith_left_of_pointwise _ r1 r2 hlen
      (fun p hp q => cross_byte_px_fac_zero p q (hrange p hp))
  · intro r1 r2 hlen hrange
    exact zipWith_right_of_pointwise _ r1 r2 hlen
      (fun q hq p => cross_byte_px_fac_one p q (hrange q hq))
  · intro r1 r2 hlen
    exact zipWith_left_of_pointwise _ r1 r2 hlen (fun p _ q => cross_float_px_fac_zero p q)
  · intro r1 r2 hlen
    exact zipWith_right_of_pointwise _ r1 r2 hlen (fun q _ p => cross_float_px_fac_one p q)
  · norm_num [early_out_fade]
  · norm_num [early_out_fade]

/-- C4 witness: the boundary laws evaluated on concrete one-pixel
buffers. -/
theorem c4_cross_boundary_laws_witness :
    do_cross_effect_byte 0 [⟨1, 2, 3, 4⟩] [⟨5, 6, 7, 8⟩] = [⟨1, 2, 3, 4⟩] ∧
    do_cross_effect_byte 1 [⟨1, 2, 3, 4⟩] [⟨5, 6, 7, 8⟩] = [⟨5, 6, 7, 8⟩] ∧
    do_cross_effect_float 0 [⟨1, 0, 0, 1⟩] [⟨0, 1, 0, 1 / 2⟩] = [⟨1, 0, 0, 1⟩] ∧
    do_cross_effect_float 1 [⟨1, 0, 0, 1⟩] [⟨0, 1, 0, 1 / 2⟩] = [⟨0, 1, 0, 1 / 2⟩] :=
  ⟨c4_cross_boundary_laws.1 _ _ rfl (by decide),
   c4_cross_boundary_laws.2.1 _ _ rfl (by decide),
   c4_cross_boundary_laws.2.2.1 _ _ rfl,
   c4_cross_boundary_laws.2.2.2.1 _ _ rfl⟩

/-- C3: branch structure of the alpha-over effect in both paths.  With
`mfac = 1 - fac * alpha1` computed from the premultiplied decoding of
input 1: `fac <= 0` copies the input-2 pixel verbatim, otherwise
`mfac <= 0` copies the input-1 pixel verbatim, otherwise all four
premultiplied channels are blended `fac * in1 + mfac * in2` and (in the
byte path) re-encoded to straight alpha by the external encoder. -/
theorem c3_alphaover_branch_structure :
    ∀ (enc : PixF → PixB) (fac : ℚ) (p1 p2 : PixB) (q1 q2 : PixF),
      (fac ≤ 0 →
        do_alphaover_effect_byte_px enc fac p1 p2 = p2 ∧
        do_alphaover_effect_float_px fac q1 q2 = q2) ∧
      (0 < fac → 1 - fac * (straight_uchar_to_premul_float p1).a ≤ 0 →
        do_alphaover_effect_byte_px enc fac p1 p2 = p1) ∧
      (0 < fac → 1 - fac * q1.a ≤ 0 → do_alphaover_effect_float_px fac q1 q2 = q1) ∧
      (0 < fac → 0 < 1 - fac * (straight_uchar_to_premul_float p1).a →
        do_alphaover_effect_byte_px enc fac p1 p2 =
          enc ⟨fac * (straight_uchar_to_premul_float p1).r +
                 (1 - fac * (straight_uchar_to_premul_float p1).a) *
                   (straight_uchar_to_premul_float p2).r,
               fac * (straight_uchar_to_premul_float p1).g +
                 (1 - fac * (straight_uchar_to_premul_float p1).a) *
                   (straight_uchar_to_premul_float p2).g,
               fac * (straight_uchar_to_premul_float p1).b +
                 (1 - fac * (straight_uchar_to_premul_float p1).a) *
                   (straight_uchar_to_premul_float p2).b,
               fac * (straight_uchar_to_premul_float p1).a +
                 (1 - fac * (straight_uchar_to_premul_float p1).a) *
                   (straight_uchar_to_premul_float p2).a⟩) ∧
      (0 < fac → 0 < 1 - fac * q1.a →
        do_alphaover_effect_float_px fac q1 q2 =
          ⟨fac * q1.r + (1 - fac * q1.a) * q2.r, fac * q1.g + (1 - fac * q1.a) * q2.g,
           fac * q1.b + (1 - fac * q1.a) * q2.b, fac * q1.a + (1 - fac * q1.a) * q2.a⟩) := by
  intro enc fac p1 p2 q1 q2
  refine ⟨fun h => ⟨?_, ?_⟩, fun h1 h2 => ?_, fun h1 h2 => ?_, fun h1 h2 => ?_,
    fun h1 h2 => ?_⟩ <;>
      simp only [do_alphaover_effect_byte_px, do_alphaover_effect_float_px]
  · rw [if_pos h]
  · rw [if_pos h]
  · rw [if_neg (not_le.mpr h1), if_pos h2]
  · rw [if_neg (not_le.mpr h1), if_pos h2]
  · rw [if_neg (not_le.mpr h1), if_neg (not_le.mpr h2)]
  · rw [if_neg (not_le.mpr h1), if_neg (not_le.mpr h2)]

/-- C3 witness: each branch exercised at a concrete pixel. -/
theorem c3_alphaover_branch_structure_witness :
    do_alphaover_effect_float_px 0 ⟨1, 0, 0, 1⟩ ⟨0, 1, 0, 1⟩ = ⟨0, 1, 0, 1⟩ ∧
    do_alphaover_effect_byte_px (fun _ => ⟨9, 9, 9, 9⟩) 1 ⟨255, 0, 0, 255⟩ ⟨0, 0, 255, 255⟩ =
      ⟨255, 0, 0, 255⟩ ∧
    do_alphaover_effect_float_px (1 / 2) ⟨1, 0, 0, 1 / 2⟩ ⟨0, 1, 0, 1⟩ =
      ⟨1 / 2, 3 / 4, 0, 1⟩ := by
  refine ⟨(c3_alphaover_branch_structure (fun _ => ⟨9, 9, 9, 9⟩) 0 ⟨255, 0, 0, 255⟩
      ⟨0, 0, 255, 255⟩ ⟨1, 0, 0, 1⟩ ⟨0, 1, 0, 1⟩).1 le_rfl |>.2, ?_, ?_⟩
  · exact (c3_alphaover_branch_structure (fun _ => ⟨9, 9, 9, 9⟩) 1 ⟨255, 0, 0, 255⟩
      ⟨0, 0, 255, 255⟩ ⟨1, 0, 0, 1⟩ ⟨0, 1, 0, 1⟩).2.1 one_pos
      (by norm_num [straight_uchar_to_premul_float])
  · refine ((c3_alphaover_branch_structure (fun _ => ⟨9, 9, 9, 9⟩) (1 / 2) ⟨255, 0, 0, 255⟩
      ⟨0, 0, 255, 255⟩ ⟨1, 0, 0, 1 / 2⟩ ⟨0, 1, 0, 1⟩).2.2.2.2 (by norm_num)
      (by norm_num)).trans ?_
    simp only [PixF.mk.injEq]
    norm_num

/-- The byte blend driver restores buffer 2: its write of the scaled
alpha is undone from the saved `achannel` before the iteration ends. -/
theorem apply_blend_function_byte_restores (blend_function : PixB → PixB → PixB) (fac : ℚ)
    (rect1 rect2 : List PixB) :
    (apply_blend_function_byte blend_function fac rect1 rect2).1 = rect2 := by
  induction rect1 generalizing rect2 with
  | nil => cases rect2 <;> rfl
  | cons p rest ih =>
    cases rect2 with
    | nil => rfl
    | cons q rest2 =>
      simp only [apply_blend_function_byte]
      rw [ih]

/-- The float blend driver restores buffer 2. -/
theorem apply_blend_function_float_restores (blend_function : PixF → PixF → PixF) (fac : ℚ)
    (rect1 rect2 : List PixF) :
    (apply_blend_function_float blend_function fac rect1 rect2).1 = rect2 := by
  induction rect1 generalizing rect2 with
  | nil => cases rect2 <;> rfl
  | cons p rest ih =>
    cases rect2 with
    | nil => rfl
    | cons q rest2 =>
      simp only [apply_blend_function_float]
      rw [ih]

/-- The byte blend driver's output alphas are the alphas of input 1
(truncated to the processed length). -/
theorem apply_blend_function_byte_alpha (blend_function : PixB → PixB → PixB) (fac : ℚ)
    (rect1 rect2 : List PixB) :
    (apply_blend_function_byte blend_function fac rect1 rect2).2.map PixB.a =
      (rect1.take rect2.length).map PixB.a := by
  induction rect1 generalizing rect2 with
  | nil => cases rect2 <;> rfl
  | cons p rest ih =>
    cases rect2 with
    | nil => rfl
    | cons q rest2 =>
      simp only [apply_blend_function_byte, List.map_cons, List.length_cons, List.take_succ_cons]
      rw [ih]

/-- The float blend driver's output alphas are the alphas of input 1. -/
theorem apply_blend_function_float_alpha (blend_function : PixF → PixF → PixF) (fac : ℚ)
    (rect1 rect2 : List PixF) :
    (apply_blend_function_float blend_function fac rect1 rect2).2.map PixF.a =
      (rect1.take rect2.length).map PixF.a := by
  induction rect1 generalizing rect2 with
  | nil => cases rect2 <;> rfl
  | cons p rest ih =>
    cases rect2 with
    | nil => rfl
    | cons q rest2 =>
      simp only [apply_blend_function_float, List.map_cons, List.length_cons, List.take_succ_cons]
      rw [ih]

/-- C5: for every blend kernel, blend factor and pair of buffers, the
blend-mode driver leaves input buffer 2 unchanged on return (the
pre-scaled alpha handed to the kernel is restored from the saved value),
and the output buffer's alpha channel equals input 1's alpha channel
pixel for pixel, in both the byte and the float drivers. -/
theorem c5_apply_blend_function_contract :
    ∀ (blend_byte : PixB → PixB → PixB) (blend_float : PixF → PixF → PixF) (fac : ℚ)
      (rect1 rect2 : List PixB) (frect1 frect2 : List PixF),
      (apply_blend_function_byte blend_byte fac rect1 rect2).1 = rect2 ∧
      (apply_blend_function_float blend_float fac frect1 frect2).1 = frect2 ∧
      (apply_blend_function_byte blend_byte fac rect1 rect2).2.map PixB.a =
        (rect1.take rect2.length).map PixB.a ∧
      (apply_blend_function_float blend_float fac frect1 frect2).2.map PixF.a =
        (frect1.take frect2.length).map PixF.a :=
  fun bb bf fac r1 r2 f1 f2 =>
    ⟨apply_blend_function_byte_restores bb fac r1 r2,
     apply_blend_function_float_restores bf fac f1 f2,
     apply_blend_function_byte_alpha bb fac r1 r2,
     apply_blend_function_float_alpha bf fac f1 f2⟩

/-- The `CLAMP` invariant: for `lo ≤ hi` the clamped value is in
`[lo, hi]`. -/
theorem clampQ_bounds (v lo hi : ℚ) (h : lo ≤ hi) :
    lo ≤ clampQ v lo hi ∧ clampQ v lo hi ≤ hi := by
  unfold clampQ
  split_ifs with h1 h2
  · exact ⟨le_rfl, h⟩
  · exact ⟨h, le_rfl⟩
  · exact ⟨not_lt.mp h1, not_lt.mp h2⟩

/-- Every running `target_frame` value lies in `[0, target_frame_max]`
when the bound is non-negative. -/
theorem speed_target_frame_bounds (curve : ℕ → ℚ) (target_frame_max : ℚ)
    (hmax : 0 ≤ target_frame_max) (n : ℕ) :
    0 ≤ speed_target_frame curve target_frame_max n ∧
      speed_target_frame curve target_frame_max n ≤ target_frame_max := by
  induction n with
  | zero => exact ⟨le_rfl, hmax⟩
  | succ m _ =>
    exact clampQ_bounds _ 0 target_frame_max hmax

/-- C6: after the speed effect's frame-map rebuild (non-null input,
strip length at least 1), entry 0 is 0 and every entry of the rebuilt
`frameMap` lies within `[0, source strip length]`, for an arbitrary
factor curve (negative or above-1 values included), because each entry
is the clamped running sum of curve evaluations. -/
theorem c6_speed_frame_map_bounds :
    ∀ (curve : ℕ → ℚ) (effect_strip_length : ℕ) (target_frame_max : ℚ),
      1 ≤ effect_strip_length → 0 ≤ target_frame_max →
      (seq_effect_speed_rebuild_map curve effect_strip_length target_frame_max).head? =
          some 0 ∧
      ∀ e ∈ seq_effect_speed_rebuild_map curve effect_strip_length target_frame_max,
        0 ≤ e ∧ e ≤ target_frame_max := by
  intro curve len maxT hlen hmax
  constructor
  · obtain ⟨m, rfl⟩ : ∃ m, len = m + 1 := ⟨len - 1, by omega⟩
    rw [seq_effect_speed_rebuild_map, List.range_succ_eq_map]
    rfl
  · intro e he
    rw [seq_effect_speed_rebuild_map, List.mem_map] at he
    obtain ⟨n, _, rfl⟩ := he
    exact speed_target_frame_bounds curve maxT hmax n

/-- C6 witness: a length-3 map under the curve `n - 2`, which is
negative at the first indices, stays within `[0, 5]`. -/
theorem c6_speed_frame_map_bounds_witness :
    (seq_effect_speed_rebuild_map (fun n => (n : ℚ) - 2) 3 5).head? = some 0 ∧
    ∀ e ∈ seq_effect_speed_rebuild_map (fun n => (n : ℚ) - 2) 3 5, 0 ≤ e ∧ e ≤ 5 :=
  c6_speed_frame_map_bounds (fun n => (n : ℚ) - 2) 3 5 (by norm_num) (by norm_num)

/-- A filtered weighted sum of a constant equals the constant once
divided by the identically filtered weight sum, provided some member of
the window passes the filter with positive weight and all weights are
non-negative. -/
theorem blur_const_window (ker : ℤ → ℚ) (S : Finset ℤ) (P : ℤ → Prop) [DecidablePred P]
    (w : ℤ → ℤ) (c : ℚ) (j0 : ℤ) (hj : j0 ∈ S) (hP : P j0)
    (hker : ∀ k, 0 ≤ ker k) (hpos : 0 < ker (w j0)) :
    (∑ x ∈ S, if P x then c * ker (w x) else 0) *
        (∑ x ∈ S, if P x then ker (w x) else 0)⁻¹ = c := by
  have hW : (0 : ℚ) < ∑ x ∈ S, if P x then ker (w x) else 0 := by
    have hnn : ∀ x ∈ S, 0 ≤ (if P x then ker (w x) else 0) := by
      intro x _
      split
      · exact hker _
      · exact le_rfl
    have hterm : (if P j0 then ker (w j0) else 0) ≤ ∑ x ∈ S, if P x then ker (w x) else 0 :=
      Finset.single_le_sum hnn hj
    rw [if_pos hP] at hterm
    exact lt_of_lt_of_le hpos hterm
  have hsum : (∑ x ∈ S, if P x then c * ker (w x) else 0) =
      c * ∑ x ∈ S, if P x then ker (w x) else 0 := by
    rw [Finset.mul_sum]
    refine Finset.sum_congr rfl fun x _ => ?_
    split
    · rfl
    · rw [mul_zero]
  rw [hsum, mul_assoc, mul_inv_cancel₀ (ne_of_gt hW), mul_one]

/-- C7: the gaussian blur passes reproduce a constant image exactly at
every in-frame pixel, for any kernel half-width and any kernel table
with non-negative weights and a positive center weight, because
out-of-bounds samples are excluded from both the weighted sum and the
per-pixel accumulated-weight denominator. -/
theorem c7_gaussian_blur_constant_field :
    ∀ (gausstab : ℤ → ℚ) (size frame_width frame_height : ℤ) (rect : ℤ → ℤ → ℚ)
      (start_line j i : ℤ) (c : ℚ),
      0 ≤ size → (∀ k, 0 ≤ gausstab k) → 0 < gausstab size → (∀ a b, rect a b = c) →
      (0 ≤ j → j < frame_width →
        do_gaussian_blur_effect_float_x_px gausstab size frame_width rect start_line j i = c) ∧
      (0 ≤ i + start_line → i + start_line < frame_height →
        do_gaussian_blur_effect_float_y_px gausstab size frame_height rect start_line j i = c) := by
  intro ker s w h rect start j i c hs hker hpos hrect
  constructor
  · intro hj1 hj2
    simp only [do_gaussian_blur_effect_float_x_px]
    have hrw : (∑ cx ∈ Finset.Icc (j - s) (j + s),
        if 0 ≤ cx ∧ cx < w then rect cx (i + start) * ker (cx - j + s) else 0) =
        ∑ cx ∈ Finset.Icc (j - s) (j + s),
          if 0 ≤ cx ∧ cx < w then c * ker (cx - j + s) else 0 :=
      Finset.sum_congr rfl fun cx _ => by rw [hrect]
    rw [hrw]
    exact blur_const_window ker _ (fun cx => 0 ≤ cx ∧ cx < w) (fun cx => cx - j + s) c j
      (Finset.mem_Icc.mpr ⟨by linarith, by linarith⟩) ⟨hj1, hj2⟩ hker (by simpa using hpos)
  · intro hi1 hi2
    simp only [do_gaussian_blur_effect_float_y_px]
    have hrw : (∑ cy ∈ Finset.Icc (i - s) (i + s),
        if -start ≤ cy ∧ cy + start < h then rect j (cy + start) * ker (cy - i + s) else 0) =
        ∑ cy ∈ Finset.Icc (i - s) (i + s),
          if -start ≤ cy ∧ cy + start < h then c * ker (cy - i + s) else 0 :=
      Finset.sum_congr rfl fun cy _ => by rw [hrect]
    rw [hrw]
    exact blur_const_window ker _ (fun cy => -start ≤ cy ∧ cy + start < h)
      (fun cy => cy - i + s) c i (Finset.mem_Icc.mpr ⟨by linarith, by linarith⟩)
      ⟨by linarith, hi2⟩ hker (by simpa using hpos)

/-- C7 witness: a box kernel of half-width 1 on a constant field of
value 7, evaluated at the center pixel of a 3x3 frame. -/
theorem c7_gaussian_blur_constant_field_witness :
    do_gaussian_blur_effect_float_x_px (fun _ => 1) 1 3 (fun _ _ => (7 : ℚ)) 0 1 1 = 7 ∧
    do_gaussian_blur_effect_float_y_px (fun _ => 1) 1 3 (fun _ _ => (7 : ℚ)) 0 1 1 = 7 := by
  have h := c7_gaussian_blur_constant_field (fun _ => 1) 1 3 3 (fun _ _ => (7 : ℚ)) 0 1 1 7
    (by norm_num) (fun k => by norm_num) (by norm_num) (fun a b => rfl)
  exact ⟨h.1 (by norm_num) (by norm_num), h.2 (by norm_num) (by norm_num)⟩

/-- C8: the gaussian blur early-out reports use-input-1 exactly when
both configured radii are zero and run-full-algorithm otherwise, and
therefore the compositing call hands back input 1 unchanged exactly in
the both-zero case. -/
theorem c8_gaussian_blur_early_out :
    ∀ (size_x size_y : ℚ) {α : Type} (input1 full_result : α),
      (early_out_gaussian_blur size_x size_y = StripEarlyOut.useInput1 ↔
        size_x = 0 ∧ size_y = 0) ∧
      (early_out_gaussian_blur size_x size_y = StripEarlyOut.doEffect ↔
        ¬(size_x = 0 ∧ size_y = 0)) ∧
      gaussian_blur_render size_x size_y input1 full_result =
        if size_x = 0 ∧ size_y = 0 then input1 else full_result := by
  intro sx sy α in1 full
  by_cases h : sx = 0 ∧ sy = 0 <;>
    simp [early_out_gaussian_blur, gaussian_blur_render, h]

/-- C9: the registry input-count query returns 0 for solid color,
multicam, adjustment and text; 1 for transform, glow, gaussian blur and
speed; and 2 for every dual-input compositing effect; and resolving the
same effect type repeatedly yields the same handle (the registry is a
pure mapping from static data). -/
theorem c9_num_inputs_registry :
    (SEQ_effect_get_num_inputs SeqType.color = 0 ∧
     SEQ_effect_get_num_inputs SeqType.multicam = 0 ∧
     SEQ_effect_get_num_inputs SeqType.adjustment = 0 ∧
     SEQ_effect_get_num_inputs SeqType.text = 0 ∧
     SEQ_effect_get_num_inputs SeqType.transform = 1 ∧
     SEQ_effect_get_num_inputs SeqType.glow = 1 ∧
     SEQ_effect_get_num_inputs SeqType.gaussian_blur = 1 ∧
     SEQ_effect_get_num_inputs SeqType.speed = 1 ∧
     SEQ_effect_get_num_inputs SeqType.cross = 2 ∧
     SEQ_effect_get_num_inputs SeqType.gamcross = 2 ∧
     SEQ_effect_get_num_inputs SeqType.alphaover = 2 ∧
     SEQ_effect_get_num_inputs SeqType.alphaunder = 2 ∧
     SEQ_effect_get_num_inputs SeqType.add = 2 ∧
     SEQ_effect_get_num_inputs SeqType.sub = 2 ∧
     SEQ_effect_get_num_inputs SeqType.mul = 2 ∧
     SEQ_effect_get_num_inputs SeqType.wipe = 2 ∧
     SEQ_effect_get_num_inputs SeqType.screen = 2 ∧
     SEQ_effect_get_num_inputs SeqType.overlay = 2 ∧
     SEQ_effect_get_num_inputs SeqType.color_burn = 2 ∧
     SEQ_effect_get_num_inputs SeqType.linear_burn = 2 ∧
     SEQ_effect_get_num_inputs SeqType.darken = 2 ∧
     SEQ_effect_get_num_inputs SeqType.lighten = 2 ∧
     SEQ_effect_get_num_inputs SeqType.dodge = 2 ∧
     SEQ_effect_get_num_inputs SeqType.soft_light = 2 ∧
     SEQ_effect_get_num_inputs SeqType.hard_light = 2 ∧
     SEQ_effect_get_num_inputs SeqType.pin_light = 2 ∧
     SEQ_effect_get_num_inputs SeqType.lin_light = 2 ∧
     SEQ_effect_get_num_inputs SeqType.vivid_light = 2 ∧
     SEQ_effect_get_num_inputs SeqType.blend_color = 2 ∧
     SEQ_effect_get_num_inputs SeqType.hue = 2 ∧
     SEQ_effect_get_num_inputs SeqType.saturation = 2 ∧
     SEQ_effect_get_num_inputs SeqType.value = 2 ∧
     SEQ_effect_get_num_inputs SeqType.difference = 2 ∧
     SEQ_effect_get_num_inputs SeqType.exclusion = 2 ∧
     SEQ_effect_get_num_inputs SeqType.colormix = 2 ∧
     SEQ_effect_get_num_inputs SeqType.overdrop = 2) ∧
    ∀ t : SeqType, get_sequence_effect_impl t = get_sequence_effect_impl t :=
  ⟨by decide, fun _ => rfl⟩

/-- C10: the output buffer is allocated in float representation exactly
when at least one non-null input carries a float buffer; with no inputs,
or with byte-only inputs, a byte output is allocated. -/
theorem c10_output_float_iff_input_float :
    ∀ ibuf1 ibuf2 ibuf3 : Option ImBufDesc,
      prepare_effect_imbufs_float ibuf1 ibuf2 ibuf3 = true ↔
        (imbuf_float_data ibuf1 = true ∨ imbuf_float_data ibuf2 = true ∨
          imbuf_float_data ibuf3 = true) := by
  intro i1 i2 i3
  rcases i1 with _ | ⟨f1, y1⟩ <;> rcases i2 with _ | ⟨f2, y2⟩ <;> rcases i3 with _ | ⟨f3, y3⟩ <;>
    simp [prepare_effect_imbufs_float, imbuf_float_data, or_assoc]
